import Mathlib

/-!
# Verification of the `httpclient` package (goutils)

Shallow embedding of the repository's `httpclient` package and proofs about it.

The repository contains three variants of the package:
* the early variant (per-executor descriptor: `NewReqResp(ctx, url, method, body,
  header, timeout, client, transport)` and a nullary `HTTPreq()`),
* the refined variant A (per-call `HTTPreq(method, url, body, header)`, which
  sets `Content-Type`/`Content-Length` for POST and assigns `r.url = url`),
* the refined variant B (per-call `HTTPreq`, which normalizes a `"null"` response
  body to the empty string, sets no content headers, and never assigns the
  `url` field it later dereferences).

Durations are modelled in whole seconds (`Nat`), matching the granularity of the
source (`time.Sleep(time.Second * seconds)`, `DefaultTimeout = time.Second * 30`).
Network behaviour is modelled by a trace of attempt outcomes supplied to the
loop: each `client.Do` call consumes one element of the trace.
-/

namespace HttpClient

/-! ## String containment (model of Go `strings.Contains`) -/

/-- `isPrefixChars sub l` is true when `sub` is a prefix of `l`. -/
def isPrefixChars : List Char → List Char → Bool
  | [], _ => true
  | _ :: _, [] => false
  | a :: as, b :: bs => a == b && isPrefixChars as bs

/-- `containsChars sub l` is true when `sub` occurs contiguously inside `l`. -/
def containsChars (sub : List Char) : List Char → Bool
  | [] => isPrefixChars sub []
  | c :: cs => isPrefixChars sub (c :: cs) || containsChars sub cs

/-- Model of Go `strings.Contains(s, sub)`. -/
def strContains (s sub : String) : Bool :=
  containsChars sub.toList s.toList

/-! ## Package constants and globals (from the `const`/`var` blocks) -/

def oneHundred : Nat := 100
def thirty : Nat := 30
def ten : Nat := 10
def one : Nat := 1

/-- `DefaultTimeout = time.Second * thirty`, in seconds. -/
def DefaultTimeout : Nat := thirty

def Post : String := "POST"
def Delete : String := "DELETE"
def Get : String := "GET"

/-! ## Retryable-error classification

Mirrors the six `strings.Contains(err.Error(), ...)` checks guarding the retry
branch of `HTTPreq` (identical in all three variants). -/

/-- The transport-error classification of the retry branch of `HTTPreq`. -/
def retryableError (msg : String) : Bool :=
  strContains msg "connection refused" ||
  strContains msg "http2: no cached connection was available" ||
  strContains msg "net/http: TLS handshake timeout" ||
  strContains msg "i/o timeout" ||
  strContains msg "unexpected EOF" ||
  strContains msg "Client.Timeout exceeded while awaiting headers"

/-! ## Backoff -/

/-- One update of the sleep duration: `seconds += seconds; if seconds > ten
then seconds = one`. -/
def nextBackoff (seconds : Nat) : Nat :=
  let s2 := seconds + seconds
  if s2 > ten then one else s2

/-- `iterBackoff s n` is the sleep duration after `n` retryable failures when it
started at `s`. -/
def iterBackoff (s : Nat) : Nat → Nat
  | 0 => s
  | n + 1 => iterBackoff (nextBackoff s) n

/-- The list of the first `n` sleep durations starting from duration `s`. -/
def sleepsIter (s : Nat) : Nat → List Nat
  | 0 => []
  | n + 1 => s :: sleepsIter (nextBackoff s) n

/-- The sawtooth sequence `1,2,4,8,1,2,4,8,...` named by the specification
(`k`-th backoff sleep, counted from 0). -/
def sawtoothSpec (k : Nat) : Nat := 2 ^ (k % 4)

/-! ## The attempt loop -/

deriving instance DecidableEq for Except

/-- One outcome of a `client.Do` call, together with the wall-clock duration
(in seconds) that the call took.  A response additionally carries the result of
reading its body (`io.ReadAll` can fail). -/
inductive AttemptResult
  | failure (errText : String) (duration : Nat)
  | response (status : Nat) (statusLine : String) (readResult : Except String String)
      (duration : Nat)
deriving DecidableEq

/-- The observable result of one `HTTPreq` exchange. -/
inductive ExchangeOutcome
  /-- `return nil` with the status code and cached body text available. -/
  | success (status : Nat) (body : String)
  /-- `requestError("failed: <status line> <body>")` — a `RequestFailedError`. -/
  | failedStatus (statusLine : String) (body : String)
  /-- `readingResponseBodyError` from `getRespBody`. -/
  | readError (msg : String)
  /-- the raw transport error text, returned verbatim (`return err`). -/
  | transportError (errText : String)
  /-- `requestBodyError` — serialization of the request body failed. -/
  | bodyError (msg : String)
  /-- validation failure of the early-variant constructor (`ErrorInvalidURL`). -/
  | invalidTarget
  /-- refined variant B dereferences its never-assigned `url` field. -/
  | nilURLPanic
deriving DecidableEq

/-- Instrumented result of running the retry loop: the backoff sleeps
performed (in order), the number of `client.Do` calls issued, and the outcome. -/
structure RunResult where
  sleeps : List Nat
  attempts : Nat
  outcome : ExchangeOutcome
deriving DecidableEq

/-- The retry loop of `HTTPreq` (the `for { ... }` block, identical in all
three variants up to the body transform `readBody` applied by `getRespBody`:
the identity for the early variant and refined variant A, `"null"`-suppression
for refined variant B).

Arguments track the loop state: the trace of `client.Do` outcomes still to be
consumed, `retries` (initially 30), `seconds` (initially 1), and `elapsed`, the
wall-clock seconds since `start` at the beginning of the current attempt
(initially 0).  The continuation condition `retries > 0 || time.Since(start) >
timeout` is evaluated after the sleep, with the decremented budget.  `none`
means the trace was exhausted while the loop was still continuing. -/
def doAttempts (readBody : String → String) (method : String) (timeout : Nat) :
    List AttemptResult → Int → Nat → Nat → Option RunResult
  | [], _, _, _ => none
  | .failure errText d :: rest, retries, seconds, elapsed =>
    if retryableError errText then
      let elapsed1 := elapsed + d + seconds
      let retries1 := retries - 1
      let seconds1 := nextBackoff seconds
      if retries1 > 0 ∨ elapsed1 > timeout then
        (doAttempts readBody method timeout rest retries1 seconds1 elapsed1).map
          (fun res => ⟨seconds :: res.sleeps, res.attempts + 1, res.outcome⟩)
      else
        some ⟨[seconds], 1, .transportError errText⟩
    else
      some ⟨[], 1, .transportError errText⟩
  | .response status statusLine readRes _ :: _, _, _, _ =>
    match readRes with
    | .error msg => some ⟨[], 1, .readError msg⟩
    | .ok raw =>
      let body := readBody raw
      if status == 200 || (status == 201 && method == Post) ||
          (status == 204 && method == Delete) then
        some ⟨[], 1, .success status body⟩
      else
        some ⟨[], 1, .failedStatus statusLine body⟩

/-! ## Decimal rendering (model of `fmt.Sprintf("%d", n)`) -/

/-- The character for a decimal digit. -/
def digitChar (d : Nat) : Char := Char.ofNat (48 + d)

/-- Fuel-driven decimal digits of `n`, most significant first.  The fuel is
always sufficient when it exceeds the number of digits; `natRepr` supplies
`n + 1`. -/
def natReprCore : Nat → Nat → List Char
  | 0, _ => []
  | fuel + 1, n => if n < 10 then [digitChar n] else natReprCore fuel (n / 10) ++ [digitChar (n % 10)]

/-- Model of `fmt.Sprintf("%d", n)` for a non-negative count. -/
def natRepr (n : Nat) : String := ⟨natReprCore (n + 1) n⟩

/-! ## Request bodies and the serialization codec

The codec (`encoding/json`) is an external collaborator; it is modelled just
finely enough to distinguish the cases the source distinguishes: a Go `nil`
interface marshals to `"null"`, a Go string marshals to its quoted form, a
marshalable structured value marshals to its rendering, and an unmarshalable
value (e.g. a channel) makes `json.Marshal` return an error. -/

/-- A structured value with a JSON rendering (string escaping not modelled). -/
inductive JsonVal
  | null
  | bool (b : Bool)
  | num (n : Int)
  | str (s : String)
deriving DecidableEq

/-- The rendering of a `JsonVal`. -/
def jsonRender : JsonVal → String
  | .null => "null"
  | .bool true => "true"
  | .bool false => "false"
  | .num n => if n < 0 then "-" ++ natRepr n.natAbs else natRepr n.natAbs
  | .str s => "\"" ++ s ++ "\""

/-- The Go value passed as the `body interface{}` argument (or held in the
`r.body` field). -/
inductive BodyVal
  /-- the `nil` interface (in particular, the zero value of the `body` field). -/
  | goNil
  /-- a Go string (matched by the `body.(string)` type assertion). -/
  | str (s : String)
  /-- a structured value that `json.Marshal` serializes successfully. -/
  | jsonable (j : JsonVal)
  /-- a value on which `json.Marshal` fails with the given message. -/
  | unmarshalable (msg : String)
deriving DecidableEq

/-- Model of `json.Marshal`. -/
def jsonMarshal : BodyVal → Except String String
  | .goNil => .ok "null"
  | .str s => .ok (jsonRender (.str s))
  | .jsonable j => .ok (jsonRender j)
  | .unmarshalable msg => .error msg

/-! ## Headers (model of the Go `Header` map and `http.Header.Set`) -/

/-- Header fields as an association list; Go map assignment replaces the
binding of an existing key. -/
def headerSet : List (String × String) → String → String → List (String × String)
  | [], k, v => [(k, v)]
  | (k', v') :: rest, k, v =>
    if k' == k then (k, v) :: rest else (k', v') :: headerSet rest k v

/-- Lookup of a header field. -/
def headerGet : List (String × String) → String → Option String
  | [], _ => none
  | (k', v') :: rest, k => if k' == k then some v' else headerGet rest k

/-- The header fields actually set on the outgoing request: the
`for k, v := range r.headerFields { if len(v) > 0 { httpReq.Header.Set(k, v) } }`
loop skips empty values. -/
def requestHeaders (h : List (String × String)) : List (String × String) :=
  h.filter (fun p => p.2 != "")

/-! ## Targets, transports, clients -/

/-- A resource locator (`*url.URL`); `Option URL` models the pointer, with
`none` for `nil`. -/
structure URL where
  scheme : String
  host : String
  path : String
deriving DecidableEq

/-- The zero value of `url.URL`: an "empty" (but non-nil) target. -/
def emptyURL : URL := ⟨"", "", ""⟩

/-- A transport value: the package-global pooled transport `tr`, or a
caller-supplied custom transport. -/
inductive TransportVal
  | globalTr
  | custom (id : Nat)
deriving DecidableEq

/-- The HTTP client built by `HTTPreq`/`NewReqResp`: a dedicated TLS client
with enforced minimum version, or a plain client wrapping a transport. -/
inductive ClientModel
  | tlsMin12
  | withTransport (t : TransportVal)
deriving DecidableEq

/-- The client-selection step (`if url.Scheme == "https" { ... TLS client ... }
else { &http.Client{Transport: r.transport} }`). -/
def selectClient (scheme : String) (tf : TransportVal) : ClientModel :=
  if scheme == "https" then ClientModel.tlsMin12 else ClientModel.withTransport tf

/-! ## The refined executor state and constructor -/

/-- The fields of the refined-variant `reqResp` struct relevant to behaviour.
`urlField` and `bodyField` model `r.url` and `r.body`; no refined-variant code
path ever assigns them, so after `NewReqResp` they hold the Go zero values
(`nil`). -/
structure RefinedState where
  transportField : TransportVal
  urlField : Option URL
  bodyField : BodyVal
  timeout : Nat
deriving DecidableEq

/-- The refined-variant constructor (`NewReqResp`).  The source defaults the
local `transport` parameter to the global `tr`, but the struct literal then
stores the global `tr` itself (`transport: tr`), so the local is unused; the
caller's `client` argument is likewise irrelevant because `HTTPreq` overwrites
`r.client` before every send. -/
def NewReqRespRefined (timeout : Option Nat) (client : Option ClientModel)
    (transport : Option TransportVal) : RefinedState :=
  let _transport := transport.getD TransportVal.globalTr
  let _client := client
  { transportField := TransportVal.globalTr
    urlField := none
    bodyField := BodyVal.goNil
    timeout := timeout.getD DefaultTimeout }

/-- The per-call result of one modelled `HTTPreq` invocation. -/
structure HTTPreqResult where
  /-- the wire payload attached to the request (`POST` only). -/
  sentPayload : Option String
  /-- the header fields set on the outgoing request. -/
  sentHeaders : List (String × String)
  /-- the backoff sleeps performed, in order. -/
  sleeps : List Nat
  /-- the number of `client.Do` calls issued. -/
  attempts : Nat
  outcome : ExchangeOutcome
deriving DecidableEq

/-- Refined variant A of `HTTPreq` (the copy that assigns `r.url = url`, sets
`Content-Type`/`Content-Length` for POST, and stores the body text verbatim).
In the POST branch a string body is passed through byte-for-byte, while any
other body is serialized via `json.Marshal(r.body)` — the *field*, not the
`body` parameter. -/
def HTTPreqA (st : RefinedState) (method : Option String) (url : URL)
    (body : BodyVal) (header : Option (List (String × String)))
    (trace : List AttemptResult) : Option HTTPreqResult :=
  let _client := selectClient url.scheme st.transportField
  let hdr := header.getD []
  let m := method.getD Get
  if m == Post then
    let payloadE : Except String String :=
      match body with
      | .str b => .ok b
      | _ => jsonMarshal st.bodyField
    match payloadE with
    | .error msg => some ⟨none, requestHeaders hdr, [], 0, .bodyError msg⟩
    | .ok p =>
      let hdr1 := headerSet (headerSet hdr "Content-Type" "application/json")
        "Content-Length" (natRepr p.utf8ByteSize)
      (doAttempts (fun s => s) m st.timeout trace 30 1 0).map
        (fun res => ⟨some p, requestHeaders hdr1, res.sleeps, res.attempts, res.outcome⟩)
  else
    (doAttempts (fun s => s) m st.timeout trace 30 1 0).map
      (fun res => ⟨none, requestHeaders hdr, res.sleeps, res.attempts, res.outcome⟩)

/-- The body transform of refined variant B's `getRespBody`:
`if strData == "null" { strData = "" }`. -/
def normalizeNull (s : String) : String :=
  if s == "null" then "" else s

/-- Refined variant B of `HTTPreq` (the copy that normalizes a `"null"` body
and sets no content headers).  After building the client and the defaults it
evaluates `r.url.String()` for a log argument; no code path assigns `r.url`,
so the call dereferences a nil pointer before any request is built. -/
def HTTPreqB (st : RefinedState) (method : Option String) (url : URL)
    (body : BodyVal) (header : Option (List (String × String)))
    (trace : List AttemptResult) : Option HTTPreqResult :=
  let _client := selectClient url.scheme st.transportField
  let hdr := header.getD []
  let m := method.getD Get
  match st.urlField with
  | none => some ⟨none, [], [], 0, .nilURLPanic⟩
  | some _ =>
    if m == Post then
      let payloadE : Except String String :=
        match body with
        | .str b => .ok b
        | _ => jsonMarshal st.bodyField
      match payloadE with
      | .error msg => some ⟨none, requestHeaders hdr, [], 0, .bodyError msg⟩
      | .ok p =>
        (doAttempts normalizeNull m st.timeout trace 30 1 0).map
          (fun res => ⟨some p, requestHeaders hdr, res.sleeps, res.attempts, res.outcome⟩)
    else
      (doAttempts normalizeNull m st.timeout trace 30 1 0).map
        (fun res => ⟨none, requestHeaders hdr, res.sleeps, res.attempts, res.outcome⟩)

/-! ## The early variant -/

/-- The fields of the early-variant `reqResp` struct (all assigned by its
constructor). -/
structure V1State where
  client : ClientModel
  transportField : TransportVal
  url : URL
  method : String
  timeout : Nat
  bodyField : BodyVal
  header : List (String × String)
deriving DecidableEq

/-- The early-variant constructor: validates only that the url pointer is
non-nil, defaults the transport, builds the client when the caller passed
none (TLS for `https`, otherwise the defaulted transport), and defaults
header, method and timeout. -/
def NewReqRespV1 (url : Option URL) (method : Option String) (body : BodyVal)
    (header : Option (List (String × String))) (timeout : Option Nat)
    (client : Option ClientModel) (transport : Option TransportVal) :
    Except Unit V1State :=
  match url with
  | none => .error ()
  | some u =>
    let transport := transport.getD TransportVal.globalTr
    let client := client.getD
      (if u.scheme == "https" then ClientModel.tlsMin12
       else ClientModel.withTransport transport)
    let header := header.getD []
    let method := method.getD Get
    let timeout := timeout.getD DefaultTimeout
    .ok ⟨client, TransportVal.globalTr, u, method, timeout, body, header⟩

/-- The early-variant `HTTPreq()`: for POST the body field is always
serialized with `json.Marshal(r.body)` (no string pass-through, no content
headers), then the retry loop runs with the untransformed body text. -/
def HTTPreqV1 (st : V1State) (trace : List AttemptResult) : Option HTTPreqResult :=
  if st.method == Post then
    match jsonMarshal st.bodyField with
    | .error msg => some ⟨none, requestHeaders st.header, [], 0, .bodyError msg⟩
    | .ok p =>
      (doAttempts (fun s => s) st.method st.timeout trace 30 1 0).map
        (fun res => ⟨some p, requestHeaders st.header, res.sleeps, res.attempts, res.outcome⟩)
  else
    (doAttempts (fun s => s) st.method st.timeout trace 30 1 0).map
      (fun res => ⟨none, requestHeaders st.header, res.sleeps, res.attempts, res.outcome⟩)

/-- The early-variant exchange: constructor followed by `HTTPreq()`.  A nil
target stops the call before any request is built. -/
def exchangeV1 (url : Option URL) (method : Option String) (body : BodyVal)
    (header : Option (List (String × String))) (timeout : Option Nat)
    (client : Option ClientModel) (transport : Option TransportVal)
    (trace : List AttemptResult) : Option HTTPreqResult :=
  match NewReqRespV1 url method body header timeout client transport with
  | .error _ => some ⟨none, [], [], 0, .invalidTarget⟩
  | .ok st => HTTPreqV1 st trace

/-! ## Response-body caching (`getRespBody` / `RespBody`) -/

/-- The response-side state of a `reqResp`: the (one-shot) body stream, an
instrumentation counter of underlying reads, and the `respText` cache. -/
structure RespState where
  /-- what `io.ReadAll(r.resp.Body)` yields. -/
  stream : Except String String
  /-- instrumentation: how many underlying reads have been performed. -/
  reads : Nat
  /-- the `respText` field (`nil` = `none`). -/
  respText : Option String
deriving DecidableEq

/-- `getRespBody`, parametrized by the variant's body transform (`f` is the
identity for the early variant and refined variant A, `normalizeNull` for
refined variant B): reads the stream once and caches the (transformed) text. -/
def getRespBodyGen (f : String → String) (st : RespState) :
    RespState × Except String Unit :=
  match st.stream with
  | .error msg => ({ st with reads := st.reads + 1 }, .error msg)
  | .ok data => ({ st with reads := st.reads + 1, respText := some (f data) }, .ok ())

/-- `RespBody`: returns the cached `respText`, reading it first via
`getRespBody` when the cache is still empty; a failed read yields `nil`. -/
def RespBodyGen (f : String → String) (st : RespState) :
    RespState × Option String :=
  match st.respText with
  | some t => (st, some t)
  | none =>
    match getRespBodyGen f st with
    | (st1, .error _) => (st1, none)
    | (st1, .ok _) => (st1, st1.respText)

/-! ## Helper lemmas -/

/-- `mkFail` turns an (error text, duration) pair into a transport failure. -/
def mkFail (p : String × Nat) : AttemptResult := .failure p.1 p.2

/-- Total wall-clock seconds consumed by a run of retryable failures starting
at sleep duration `s`: each failure contributes its attempt duration plus the
sleep that follows it. -/
def failCost (s : Nat) : List (String × Nat) → Nat
  | [] => 0
  | p :: ps => p.2 + s + failCost (nextBackoff s) ps

theorem iterBackoff_succ (s n : Nat) :
    iterBackoff s (n + 1) = nextBackoff (iterBackoff s n) := by
  induction n generalizing s with
  | zero => rfl
  | succ n ih => exact ih (nextBackoff s)

theorem iterBackoff_one (n : Nat) : iterBackoff 1 n = 2 ^ (n % 4) := by
  induction n with
  | zero => rfl
  | succ n ih =>
    rw [iterBackoff_succ, ih]
    have h4 : n % 4 = 0 ∨ n % 4 = 1 ∨ n % 4 = 2 ∨ n % 4 = 3 := by omega
    rcases h4 with h | h | h | h
    · rw [h, show (n + 1) % 4 = 1 from by omega]; decide
    · rw [h, show (n + 1) % 4 = 2 from by omega]; decide
    · rw [h, show (n + 1) % 4 = 3 from by omega]; decide
    · rw [h, show (n + 1) % 4 = 0 from by omega]; decide

theorem sleepsIter_eq_map (s n : Nat) :
    sleepsIter s n = (List.range n).map (fun i => iterBackoff s i) := by
  induction n generalizing s with
  | zero => rfl
  | succ n ih =>
    rw [List.range_succ_eq_map]
    simp only [List.map_cons, List.map_map]
    rw [show sleepsIter s (n + 1) = s :: sleepsIter (nextBackoff s) n from rfl,
      ih (nextBackoff s)]
    rfl

/-- Running the loop through a block of retryable failures whose count stays
strictly below the remaining budget: each failure sleeps once, decrements the
budget, advances the backoff, and the loop continues into `rest`. -/
theorem doAttempts_through_failures (f : String → String) (m : String) (t : Nat) :
    ∀ (fails : List (String × Nat)) (r : Int) (s el : Nat)
      (rest : List AttemptResult),
      (∀ p ∈ fails, retryableError p.1 = true) →
      (fails.length : Int) < r →
      doAttempts f m t (fails.map mkFail ++ rest) r s el =
        (doAttempts f m t rest (r - fails.length) (iterBackoff s fails.length)
            (el + failCost s fails)).map
          (fun res => ⟨sleepsIter s fails.length ++ res.sleeps,
            res.attempts + fails.length, res.outcome⟩) := by
  intro fails
  induction fails with
  | nil =>
    intro r s el rest _ _
    simp only [List.map_nil, List.nil_append, List.length_nil, Nat.cast_zero,
      sub_zero, iterBackoff, failCost, Nat.add_zero, sleepsIter]
    rcases hda : doAttempts f m t rest r s el with _ | res
    · rfl
    · rfl
  | cons p ps ih =>
    obtain ⟨e, d⟩ := p
    intro r s el rest hret hlen
    have hre : retryableError e = true := hret (e, d) (List.mem_cons_self _ _)
    have hlen' : ((e, d) :: ps).length = ps.length + 1 := rfl
    rw [hlen'] at hlen
    have hcond : r - 1 > 0 := by push_cast at hlen; omega
    simp only [List.map_cons, List.cons_append, doAttempts, hre, if_true,
      List.append_eq]
    rw [if_pos (Or.inl hcond)]
    rw [ih (r - 1) (nextBackoff s) (el + d + s) rest
      (fun q hq => hret q (List.mem_cons_of_mem _ hq))
      (by push_cast at hlen ⊢; omega)]
    rw [Option.map_map]
    have h1 : r - 1 - (ps.length : Int) = r - ((ps.length : Int) + 1) := by ring
    have h3 : el + d + s + failCost (nextBackoff s) ps =
        el + failCost s ((e, d) :: ps) := by
      simp only [failCost]; omega
    rw [h1, h3]
    rfl

theorem headerGet_set_same (h : List (String × String)) (k v : String) :
    headerGet (headerSet h k v) k = some v := by
  induction h with
  | nil => simp [headerSet, headerGet]
  | cons p rest ih =>
    obtain ⟨k', v'⟩ := p
    rcases hbeq : (k' == k) with _ | _
    · simp [headerSet, headerGet, hbeq, ih]
    · simp [headerSet, headerGet, hbeq]

theorem headerGet_set_ne (h : List (String × String)) (k k2 v : String)
    (hne : k2 ≠ k) :
    headerGet (headerSet h k2 v) k = headerGet h k := by
  induction h with
  | nil => simp [headerSet, headerGet, hne]
  | cons p rest ih =>
    obtain ⟨k', v'⟩ := p
    rcases hbeq : (k' == k2) with _ | _
    · simp only [headerSet, hbeq, Bool.false_eq_true, if_false, headerGet, ih]
    · have hk' : k' = k2 := by simpa using hbeq
      subst hk'
      simp [headerSet, headerGet, hne]

theorem headerGet_requestHeaders (h : List (String × String)) (k v : String)
    (hv : v ≠ "") (hg : headerGet h k = some v) :
    headerGet (requestHeaders h) k = some v := by
  induction h with
  | nil => simp [headerGet] at hg
  | cons p rest ih =>
    obtain ⟨k', v'⟩ := p
    rcases hbeq : (k' == k) with _ | _
    · simp only [headerGet, hbeq, Bool.false_eq_true, if_false] at hg
      rcases hv' : (v' != "") with _ | _
      · simpa [requestHeaders, List.filter_cons, hv'] using ih hg
      · simp only [requestHeaders, List.filter_cons, hv', if_true]
        simpa [headerGet, hbeq] using ih hg
    · simp only [headerGet, hbeq, if_true] at hg
      have hv'' : v' = v := by simpa using hg
      subst hv''
      have hvne : (v' != "") = true := by
        simpa [bne_iff_ne] using hv
      simp [requestHeaders, List.filter_cons, hvne, headerGet, hbeq]

theorem natReprCore_ne_nil (fuel n : Nat) : natReprCore (fuel + 1) n ≠ [] := by
  by_cases h10 : n < 10
  · simp [natReprCore, h10]
  · simp [natReprCore, h10]

theorem natRepr_ne_empty (n : Nat) : natRepr n ≠ "" := by
  intro h
  exact natReprCore_ne_nil n n (congrArg String.data h)

/-! ## Claim theorems -/

/-- C1: after a retryable transport failure, having slept and decremented the
retry budget, `HTTPreq` issues another attempt if and only if the decremented
budget is positive OR the elapsed time since the first attempt exceeds the
configured timeout; when neither holds, the raw transport error text is
returned to the caller (after exactly one attempt on this failure, with no
further send). -/
theorem httpreq_retry_continuation_iff (f : String → String) (m : String)
    (t : Nat) (e : String) (d : Nat) (rest : List AttemptResult) (r : Int)
    (s el : Nat) (hret : retryableError e = true) :
    (¬(r - 1 > 0 ∨ el + d + s > t) →
      doAttempts f m t (.failure e d :: rest) r s el =
        some ⟨[s], 1, .transportError e⟩) ∧
    ((r - 1 > 0 ∨ el + d + s > t) →
      doAttempts f m t (.failure e d :: rest) r s el =
        (doAttempts f m t rest (r - 1) (nextBackoff s) (el + d + s)).map
          (fun res => ⟨s :: res.sleeps, res.attempts + 1, res.outcome⟩)) := by
  constructor
  · intro h
    simp only [doAttempts]
    rw [if_pos hret, if_neg h]
  · intro h
    simp only [doAttempts]
    rw [if_pos hret, if_pos h]

theorem httpreq_retry_continuation_iff_witness :
    doAttempts (fun x => x) "GET" 30
        [.failure "connection refused" 0] 1 1 0 =
      some ⟨[1], 1, .transportError "connection refused"⟩ ∧
    doAttempts (fun x => x) "GET" 30
        [.failure "connection refused" 0,
          .response 200 "200 OK" (.ok "hi") 0] 30 1 0 =
      (doAttempts (fun x => x) "GET" 30
          [.response 200 "200 OK" (.ok "hi") 0] (30 - 1) (nextBackoff 1)
          (0 + 0 + 1)).map
        (fun res => ⟨1 :: res.sleeps, res.attempts + 1, res.outcome⟩) :=
  ⟨(httpreq_retry_continuation_iff (fun x => x) "GET" 30 "connection refused" 0
      [] 1 1 0 (by decide)).1 (by decide),
    (httpreq_retry_continuation_iff (fun x => x) "GET" 30 "connection refused" 0
      [.response 200 "200 OK" (.ok "hi") 0] 30 1 0 (by decide)).2 (by decide)⟩

/-- The Boolean success test of the loop, as a proposition. -/
theorem successStatus_iff (st : Nat) (m : String) :
    (st == 200 || (st == 201 && m == Post) || (st == 204 && m == Delete)) =
      true ↔
    (st = 200 ∨ (st = 201 ∧ m = Post) ∨ (st = 204 ∧ m = Delete)) := by
  simp only [Bool.or_eq_true, Bool.and_eq_true, beq_iff_eq]
  tauto

/-- C3: when a response is received (and its body reads successfully),
`HTTPreq` returns success with the status code and body text if and only if
the status is 200 for any method, 201 when the method is `POST`, or 204 when
the method is `DELETE`; for every other status it returns the
`RequestFailedError` carrying the status line and the (transformed) response
body text. -/
theorem status_classification (f : String → String) (m : String) (t : Nat)
    (r : Int) (s el : Nat) (st : Nat) (line raw : String) (d : Nat) :
    (doAttempts f m t [.response st line (.ok raw) d] r s el =
        some ⟨[], 1, .success st (f raw)⟩ ↔
      (st = 200 ∨ (st = 201 ∧ m = Post) ∨ (st = 204 ∧ m = Delete))) ∧
    (¬(st = 200 ∨ (st = 201 ∧ m = Post) ∨ (st = 204 ∧ m = Delete)) →
      doAttempts f m t [.response st line (.ok raw) d] r s el =
        some ⟨[], 1, .failedStatus line (f raw)⟩) := by
  by_cases h : st = 200 ∨ (st = 201 ∧ m = Post) ∨ (st = 204 ∧ m = Delete)
  · have hb : (st == 200 || (st == 201 && m == Post) ||
        (st == 204 && m == Delete)) = true := (successStatus_iff st m).mpr h
    constructor
    · simp [doAttempts, hb, h]
    · intro hc; exact absurd h hc
  · have hb : (st == 200 || (st == 201 && m == Post) ||
        (st == 204 && m == Delete)) = false :=
      Bool.eq_false_iff.mpr (fun hbt => h ((successStatus_iff st m).mp hbt))
    constructor
    · constructor
      · intro he
        simp [doAttempts, hb] at he
      · intro hc; exact absurd hc h
    · intro _
      simp [doAttempts, hb]

theorem status_classification_witness :
    doAttempts (fun x => x) "GET" 30
        [.response 200 "200 OK" (.ok "hi") 0] 30 1 0 =
      some ⟨[], 1, .success 200 "hi"⟩ ∧
    doAttempts (fun x => x) "GET" 30
        [.response 500 "500 Internal Server Error" (.ok "boom") 0] 30 1 0 =
      some ⟨[], 1, .failedStatus "500 Internal Server Error" "boom"⟩ :=
  ⟨(status_classification (fun x => x) "GET" 30 30 1 0 200 "200 OK" "hi" 0).1.mpr
      (by decide),
    (status_classification (fun x => x) "GET" 30 30 1 0 500
      "500 Internal Server Error" "boom" 0).2 (by decide)⟩

/-- C10: a non-retryable transport error is returned with no sleep at all,
while a retryable transport failure incurs exactly one backoff sleep even when
the loop then stops retrying (budget exhausted and deadline not exceeded), the
raw transport error being returned after that single extra sleep. -/
theorem sleep_accounting_per_failure (f : String → String) (m : String)
    (t : Nat) (e : String) (d : Nat) (rest : List AttemptResult) (r : Int)
    (s el : Nat) :
    (retryableError e = false →
      doAttempts f m t (.failure e d :: rest) r s el =
        some ⟨[], 1, .transportError e⟩) ∧
    (retryableError e = true → ¬(r - 1 > 0 ∨ el + d + s > t) →
      doAttempts f m t (.failure e d :: rest) r s el =
        some ⟨[s], 1, .transportError e⟩) := by
  constructor
  · intro hnr
    simp only [doAttempts]
    rw [if_neg (by simp [hnr])]
  · intro hret h
    simp only [doAttempts]
    rw [if_pos hret, if_neg h]

theorem sleep_accounting_per_failure_witness :
    doAttempts (fun x => x) "GET" 30
        [.failure "dial tcp: lookup x: no such host" 0] 30 1 0 =
      some ⟨[], 1, .transportError "dial tcp: lookup x: no such host"⟩ ∧
    doAttempts (fun x => x) "GET" 30 [.failure "i/o timeout" 0] 1 1 0 =
      some ⟨[1], 1, .transportError "i/o timeout"⟩ :=
  ⟨(sleep_accounting_per_failure (fun x => x) "GET" 30
      "dial tcp: lookup x: no such host" 0 [] 30 1 0).1 (by decide),
    (sleep_accounting_per_failure (fun x => x) "GET" 30 "i/o timeout" 0 []
      1 1 0).2 (by decide) (by decide)⟩

/-- C7: starting from a result whose body has not yet been captured, calling
`RespBody` twice returns the identical string both times and performs exactly
one underlying read of the response stream: the first call reads and caches
the text, the second returns the cached value. -/
theorem respbody_cached_single_read (f : String → String) (s : String)
    (k : Nat) :
    (RespBodyGen f ⟨.ok s, k, none⟩).2 = some (f s) ∧
    (RespBodyGen f (RespBodyGen f ⟨.ok s, k, none⟩).1).2 =
      (RespBodyGen f ⟨.ok s, k, none⟩).2 ∧
    (RespBodyGen f (RespBodyGen f ⟨.ok s, k, none⟩).1).1.reads = k + 1 := by
  simp [RespBodyGen, getRespBodyGen]

/-- C8: in the refined variant B, when the response body read yields exactly
the literal string `"null"`, the cached body text is normalized to the empty
string; every other body text is stored unchanged. -/
theorem null_body_normalization (s : String) (k : Nat) (r0 : Option String) :
    (getRespBodyGen normalizeNull ⟨.ok "null", k, r0⟩).1.respText = some "" ∧
    (s ≠ "null" →
      (getRespBodyGen normalizeNull ⟨.ok s, k, r0⟩).1.respText = some s) := by
  constructor
  · simp [getRespBodyGen, normalizeNull]
  · intro h
    simp [getRespBodyGen, normalizeNull, h]

theorem null_body_normalization_witness :
    (getRespBodyGen normalizeNull ⟨.ok "null", 0, none⟩).1.respText = some "" ∧
    (getRespBodyGen normalizeNull ⟨.ok "hi", 0, none⟩).1.respText = some "hi" :=
  ⟨(null_body_normalization "hi" 0 none).1,
    (null_body_normalization "hi" 0 none).2 (by decide)⟩

/-- C9: every refined-variant constructor call stores the package-global
pooled transport in the executor's transport field, whatever transport the
caller supplied; hence for every non-https request the client used to send
wraps the global transport, and the caller's custom transport has no effect. -/
theorem stored_transport_is_global (timeout : Option Nat)
    (client : Option ClientModel) (transport : Option TransportVal)
    (scheme : String) (hs : scheme ≠ "https") :
    (NewReqRespRefined timeout client transport).transportField =
      TransportVal.globalTr ∧
    selectClient scheme (NewReqRespRefined timeout client transport).transportField =
      ClientModel.withTransport TransportVal.globalTr := by
  refine ⟨rfl, ?_⟩
  simp [selectClient, NewReqRespRefined, hs]

theorem stored_transport_is_global_witness :
    (NewReqRespRefined none none (some (TransportVal.custom 7))).transportField =
      TransportVal.globalTr ∧
    selectClient "http"
        (NewReqRespRefined none none (some (TransportVal.custom 7))).transportField =
      ClientModel.withTransport TransportVal.globalTr :=
  stored_transport_is_global none none (some (TransportVal.custom 7)) "http"
    (by decide)

/-- C5 (code evaluated at the failing input): in refined variant A a `POST`
whose body argument is the structured value `1` sends the wire payload
`"null"` — the serialization of the never-assigned `r.body` field — although
the canonical serialization of the body argument is `"1"`; and even a body
argument whose serialization would fail produces the same successful `"null"`
payload instead of a `RequestBodyError`. -/
theorem post_payload_ignores_body_argument :
    HTTPreqA (NewReqRespRefined none none none) (some Post)
        ⟨"http", "x", "/create"⟩ (BodyVal.jsonable (JsonVal.num 1)) none
        [AttemptResult.response 201 "201 Created" (Except.ok "made") 0] =
      some ⟨some "null",
        [("Content-Type", "application/json"), ("Content-Length", "4")],
        [], 1, ExchangeOutcome.success 201 "made"⟩ ∧
    jsonMarshal (BodyVal.jsonable (JsonVal.num 1)) = Except.ok "1" ∧
    HTTPreqA (NewReqRespRefined none none none) (some Post)
        ⟨"http", "x", "/create"⟩ (BodyVal.unmarshalable "unsupported value") none
        [AttemptResult.response 201 "201 Created" (Except.ok "made") 0] =
      some ⟨some "null",
        [("Content-Type", "application/json"), ("Content-Length", "4")],
        [], 1, ExchangeOutcome.success 201 "made"⟩ := by
  decide

/-- C4 (amended): a nil target is rejected by the early-variant constructor
with `InvalidTargetError` before any request is built: zero attempts, zero
sleeps, nothing sent, for every other argument and every trace. -/
theorem nil_target_rejected (method : Option String) (body : BodyVal)
    (header : Option (List (String × String))) (timeout : Option Nat)
    (client : Option ClientModel) (transport : Option TransportVal)
    (trace : List AttemptResult) :
    exchangeV1 none method body header timeout client transport trace =
      some ⟨none, [], [], 0, ExchangeOutcome.invalidTarget⟩ := rfl

/-- C4 counterexample: an empty — but non-nil — target is not rejected: the
exchange issues a transport attempt (one `client.Do` call) and returns its
error rather than `InvalidTargetError`. -/
theorem empty_target_not_rejected :
    exchangeV1 (some emptyURL) none BodyVal.goNil none none none none
        [AttemptResult.failure "unsupported protocol scheme" 0] =
      some ⟨none, [], [], 1,
        ExchangeOutcome.transportError "unsupported protocol scheme"⟩ ∧
    ExchangeOutcome.transportError "unsupported protocol scheme" ≠
      ExchangeOutcome.invalidTarget := by
  decide

/-- C6 (amended, refined variant A): a `POST` whose body is a pre-serialized
string sends that string byte-for-byte as the wire payload, and the outgoing
request carries `Content-Type: application/json` and `Content-Length` equal to
the payload's byte length. -/
theorem post_string_payload_and_headers (st : RefinedState) (s : String)
    (url : URL) (header : Option (List (String × String)))
    (trace : List AttemptResult) (res : HTTPreqResult)
    (h : HTTPreqA st (some Post) url (BodyVal.str s) header trace = some res) :
    res.sentPayload = some s ∧
    headerGet res.sentHeaders "Content-Type" = some "application/json" ∧
    headerGet res.sentHeaders "Content-Length" =
      some (natRepr s.utf8ByteSize) := by
  simp only [HTTPreqA, Option.getD_some] at h
  rw [if_pos (by decide : (Post == Post) = true)] at h
  rcases hda : doAttempts (fun x => x) Post st.timeout trace 30 1 0 with _ | r0
  · rw [hda] at h
    exact absurd h (by simp)
  · rw [hda] at h
    simp only [Option.map] at h
    injection h with h2
    subst h2
    refine ⟨rfl, ?_, ?_⟩
    · exact headerGet_requestHeaders _ _ _ (by decide)
        (by rw [headerGet_set_ne _ _ _ _
            (by decide : "Content-Length" ≠ "Content-Type")]
            exact headerGet_set_same _ _ _)
    · exact headerGet_requestHeaders _ _ _ (natRepr_ne_empty _)
        (headerGet_set_same _ _ _)

theorem post_string_payload_and_headers_witness :
    HTTPreqResult.sentPayload ⟨some "[1,2]",
        [("Content-Type", "application/json"), ("Content-Length", "5")],
        [], 1, ExchangeOutcome.success 200 "hi"⟩ = some "[1,2]" ∧
    headerGet [("Content-Type", "application/json"), ("Content-Length", "5")]
        "Content-Type" = some "application/json" ∧
    headerGet [("Content-Type", "application/json"), ("Content-Length", "5")]
        "Content-Length" = some (natRepr ("[1,2]".utf8ByteSize)) :=
  post_string_payload_and_headers (NewReqRespRefined none none none) "[1,2]"
    ⟨"http", "x", "/p"⟩ none
    [AttemptResult.response 200 "200 OK" (Except.ok "hi") 0]
    ⟨some "[1,2]",
      [("Content-Type", "application/json"), ("Content-Length", "5")],
      [], 1, ExchangeOutcome.success 200 "hi"⟩ (by decide)

/-- C6 counterexample: in refined variant B the same `POST`-with-string call
sets no content headers and sends nothing at all — the call dereferences the
never-assigned `url` field before a request is built (zero attempts, no
headers, no payload). -/
theorem content_headers_absent_variantB :
    HTTPreqB (NewReqRespRefined none none none) (some Post) ⟨"http", "x", "/p"⟩
        (BodyVal.str "[1,2]") none
        [AttemptResult.response 200 "200 OK" (Except.ok "hi") 0] =
      some ⟨none, [], [], 0, ExchangeOutcome.nilURLPanic⟩ := by
  decide

/-- C2 (amended): for a sequence of consecutive retryable transport failures
followed by a success response, as long as the retry budget is not exhausted
(at most 29 failures, so that the continuation condition holds after each
failure regardless of timing), the k-th backoff sleep (0-indexed) lasts the
k-th element of the sawtooth sequence 1,2,4,8,1,2,4,8,..., and the call
returns the success result. -/
theorem sawtooth_backoff_success (f : String → String) (m : String) (t : Nat)
    (fails : List (String × Nat)) (st : Nat) (line raw : String) (d : Nat)
    (hret : ∀ p ∈ fails, retryableError p.1 = true)
    (hn : fails.length ≤ 29)
    (hok : (st == 200 || (st == 201 && m == Post) ||
      (st == 204 && m == Delete)) = true) :
    doAttempts f m t
        (fails.map mkFail ++ [.response st line (.ok raw) d]) 30 1 0 =
      some ⟨(List.range fails.length).map sawtoothSpec, fails.length + 1,
        .success st (f raw)⟩ := by
  rw [doAttempts_through_failures f m t fails 30 1 0 _ hret (by omega)]
  have hresp : doAttempts f m t [.response st line (.ok raw) d]
      (30 - fails.length) (iterBackoff 1 fails.length) (0 + failCost 1 fails) =
      some ⟨[], 1, .success st (f raw)⟩ := by
    simp [doAttempts, hok]
  rw [hresp]
  simp only [Option.map]
  have hsl : sleepsIter 1 fails.length ++ ([] : List Nat) =
      (List.range fails.length).map sawtoothSpec := by
    rw [List.append_nil, sleepsIter_eq_map]
    exact List.map_congr_left (fun i _ => iterBackoff_one i)
  rw [hsl]
  have hat : 1 + fails.length = fails.length + 1 := Nat.add_comm _ _
  rw [hat]

theorem sawtooth_backoff_success_witness :
    doAttempts (fun x => x) "GET" 30
        (([("connection refused", 0), ("i/o timeout", 0)] :
            List (String × Nat)).map mkFail ++
          [.response 200 "200 OK" (.ok "hi") 0]) 30 1 0 =
      some ⟨(List.range ([("connection refused", 0), ("i/o timeout", 0)] :
          List (String × Nat)).length).map sawtoothSpec,
        ([("connection refused", 0), ("i/o timeout", 0)] :
          List (String × Nat)).length + 1,
        .success 200 "hi"⟩ :=
  sawtooth_backoff_success (fun x => x) "GET" 30
    [("connection refused", 0), ("i/o timeout", 0)] 200 "200 OK" "hi" 0
    (by decide) (by decide) (by decide)

/-- C2 counterexample: thirty consecutive retryable failures exhaust the
budget; with a timeout larger than the elapsed time the continuation
condition fails, so the exchange returns the raw transport error even though
a success response follows in the trace — the claim's "if a success follows
the failures, the call returns the success result" is false here. -/
theorem sawtooth_success_counterexample :
    (doAttempts (fun x => x) "GET" 1000
        (List.replicate 30 (AttemptResult.failure "connection refused" 0) ++
          [AttemptResult.response 200 "200 OK" (Except.ok "hi") 0]) 30 1
        0).map RunResult.outcome =
      some (ExchangeOutcome.transportError "connection refused") ∧
    some (ExchangeOutcome.transportError "connection refused") ≠
      some (ExchangeOutcome.success 200 "hi") := by
  decide

end HttpClient
